import Mathlib

/-!
Verification of the audit2rbac covering-rule synthesizer (`pkg` package of
liggitt/audit2rbac) against its natural-language specification.

The definitions below are a shallow embedding of the current revision of the
package: `process.go` (src/unnamed/part_001) and `util.go`
(src/unnamed/part_003).  The repository tree also contains an older revision of
the same two files (src/pkg/process.go, src/pkg/util.go); where the two
revisions differ (canonical-key erasure in `Generate`, the name-accumulation
step of `compactRules`) the newer revision is embedded, with source lines
cited at each definition.

Vendored Kubernetes helpers that the package calls but whose sources are not
in the tree (the RBAC authorizer, `serviceaccount.SplitUsername`,
`validation.BreakdownRule`, `validation.CompactRules`,
`rbacv1helper.CompactString`) are modelled from the specification (spec.md
§4.1, §4.6, §6); each such definition carries a `Modelled from the spec`
doc comment.

Go slices are embedded as `List`, Go maps as association lists, `nil` and
empty slices are identified, and the in-place mutation done by `Generate`
(sorting its request slice, appending rules through role pointers) is made
explicit by state passing (`GenState`) and by returning the post-call request
list (`GenerateFull`).
-/

set_option linter.unusedVariables false

namespace Audit2RBAC

/-- `user.Info` as used by the generator: an authenticated identity with a
username and group memberships. -/
structure UserInfo where
  name : String
  groups : List String
  deriving DecidableEq

/-- `authorizer.AttributesRecord` (k8s.io/apiserver): one observed access
attempt.  Field names follow the Go struct. -/
structure AttributesRecord where
  User : UserInfo
  Verb : String
  Namespace : String
  APIGroup : String
  APIVersion : String
  Resource : String
  Subresource : String
  Name : String
  ResourceRequest : Bool
  Path : String
  deriving DecidableEq

/-- `rbacv1.PolicyRule`.  Field names and order follow the Go struct.
`nil` and empty slices are identified. -/
structure PolicyRule where
  Verbs : List String
  APIGroups : List String
  Resources : List String
  ResourceNames : List String
  NonResourceURLs : List String
  deriving DecidableEq

/-- The parts of `metav1.ObjectMeta` the generator writes: name, namespace and
labels.  (The newer revision also stamps an annotations map; like labels it is
opaque to every verified property and is carried the same way, so it is not
duplicated here.) -/
structure ObjectMeta where
  Name : String
  Namespace : String
  Labels : List (String × String)
  deriving DecidableEq

/-- `rbacv1.Subject`. -/
structure Subject where
  Kind : String
  APIGroup : String
  Name : String
  Namespace : String
  deriving DecidableEq

/-- `rbacv1.RoleRef`. -/
structure RoleRef where
  APIGroup : String
  Kind : String
  Name : String
  deriving DecidableEq

/-- `rbacv1.Role`. -/
structure Role where
  meta : ObjectMeta
  Rules : List PolicyRule
  deriving DecidableEq

/-- `rbacv1.ClusterRole`. -/
structure ClusterRole where
  meta : ObjectMeta
  Rules : List PolicyRule
  deriving DecidableEq

/-- `rbacv1.RoleBinding`. -/
structure RoleBinding where
  meta : ObjectMeta
  RoleRef : RoleRef
  Subjects : List Subject
  deriving DecidableEq

/-- `rbacv1.ClusterRoleBinding`. -/
structure ClusterRoleBinding where
  meta : ObjectMeta
  RoleRef : RoleRef
  Subjects : List Subject
  deriving DecidableEq

/-- `RBACObjects` (process.go, src/unnamed/part_001 lines 16-21): the four
object sequences, in insertion order. -/
structure RBACObjects where
  Roles : List Role
  RoleBindings : List RoleBinding
  ClusterRoles : List ClusterRole
  ClusterRoleBindings : List ClusterRoleBinding
  deriving DecidableEq

/-- The empty `RBACObjects` value. -/
def emptyRBACObjects : RBACObjects := ⟨[], [], [], []⟩

/-- Concatenation of two `RBACObjects` (the "union of ExistingPolicy and the
generated output" of the soundness property, spec.md §8). -/
def unionRBACObjects (a b : RBACObjects) : RBACObjects :=
  ⟨a.Roles ++ b.Roles, a.RoleBindings ++ b.RoleBindings,
   a.ClusterRoles ++ b.ClusterRoles, a.ClusterRoleBindings ++ b.ClusterRoleBindings⟩

/-- `GenerateOptions` (src/unnamed/part_001 lines 23-32).  The Go
`map[string][]string` of verb expansions is an association list here. -/
structure GenerateOptions where
  VerbExpansions : List (String × List String)
  ExpandMultipleNamesToUnnamed : Bool
  ExpandMultipleNamespacesToClusterScoped : Bool
  Name : String
  Labels : List (String × String)
  deriving DecidableEq

/-- Lookup in the verb-expansion table; a missing key yields `[]`, like a Go
map read. -/
def lookupVerbExpansions (m : List (String × List String)) (v : String) : List String :=
  match m.find? (fun p => p.1 == v) with
  | some p => p.2
  | none => []

/-- `DefaultGenerateOptions` (src/unnamed/part_001 lines 34-50). -/
def DefaultGenerateOptions : GenerateOptions :=
  { VerbExpansions :=
      [("watch", ["get", "list"]),
       ("list", ["get", "watch"]),
       ("update", ["get", "patch"]),
       ("patch", ["get", "update"])],
    ExpandMultipleNamesToUnnamed := true,
    ExpandMultipleNamespacesToClusterScoped := true,
    Name := "audit2rbac",
    Labels := [] }

/-- `rbacv1.GroupName`. -/
def rbacGroupName : String := "rbac.authorization.k8s.io"

/-- Modelled from the spec (§4.1): `serviceaccount.SplitUsername` (vendored,
not in the tree).  A username parses as a service account when it has the
prefix `system:serviceaccount:` followed by exactly one `namespace:name`
pair. -/
def splitUsername (username : String) : Option (String × String) :=
  if username.startsWith "system:serviceaccount:" then
    match (username.drop "system:serviceaccount:".length).splitOn ":" with
    | [ns, n] => some (ns, n)
    | _ => none
  else none

/-- `userToSubject` (src/unnamed/part_003 lines 27-32). -/
def userToSubject (u : UserInfo) : Subject :=
  match splitUsername u.name with
  | some (ns, n) => { Kind := "ServiceAccount", APIGroup := "", Name := n, Namespace := ns }
  | none => { Kind := "User", APIGroup := rbacGroupName, Name := u.name, Namespace := "" }

/-- `attributesToResourceRule` (src/unnamed/part_003 lines 34-44). -/
def attributesToResourceRule (request : AttributesRecord) (options : GenerateOptions) :
    PolicyRule :=
  { Verbs := request.Verb :: lookupVerbExpansions options.VerbExpansions request.Verb,
    APIGroups := [request.APIGroup],
    Resources :=
      [if request.Subresource.isEmpty then request.Resource
       else request.Resource ++ "/" ++ request.Subresource],
    ResourceNames := if request.Name.isEmpty then [] else [request.Name],
    NonResourceURLs := [] }

/-! ### The RBAC authorizer

Modelled from the spec (§6 "Authorizer capability" and §4.4): the vendored
`plugin/pkg/auth/authorizer/rbac` evaluator over a static policy snapshot.
For each binding whose subject set includes the attempt's identity, the rules
of the referenced role are checked against the attempt; `"*"` is a wildcard in
verbs/groups/resources/nonResourceURLs, a rule URL ending in `*` matches by
prefix, and an empty `resourceNames` list matches any name.  Role bindings
apply only to requests inside their namespace. -/

/-- Modelled from the spec (§6): a rule's verb list matches a verb. -/
def verbMatches (rule : PolicyRule) (verb : String) : Bool :=
  rule.Verbs.any fun v => v == "*" || v == verb

/-- Modelled from the spec (§6): a rule's API group list matches a group. -/
def apiGroupMatches (rule : PolicyRule) (group : String) : Bool :=
  rule.APIGroups.any fun g => g == "*" || g == group

/-- Modelled from the spec (§6): a rule's resource list matches the combined
`resource[/subresource]` string. -/
def resourceMatches (rule : PolicyRule) (combined : String) : Bool :=
  rule.Resources.any fun res => res == "*" || res == combined

/-- Modelled from the spec (§3, §6): empty `resourceNames` means "any name";
non-empty restricts to the listed names. -/
def resourceNameMatches (rule : PolicyRule) (n : String) : Bool :=
  rule.ResourceNames.isEmpty || rule.ResourceNames.contains n

/-- Modelled from the spec (§6): a non-resource URL pattern matches the
request path literally, as the wildcard `*`, or as a `…*` prefix pattern. -/
def nonResourceURLMatches (rule : PolicyRule) (path : String) : Bool :=
  rule.NonResourceURLs.any fun u =>
    u == "*" || u == path || (u.endsWith "*" && path.startsWith (u.dropRight 1))

/-- Modelled from the spec (§6): whether one policy rule allows one attempt. -/
def ruleAllows (request : AttributesRecord) (rule : PolicyRule) : Bool :=
  if request.ResourceRequest then
    verbMatches rule request.Verb &&
    apiGroupMatches rule request.APIGroup &&
    resourceMatches rule
      (if request.Subresource.isEmpty then request.Resource
       else request.Resource ++ "/" ++ request.Subresource) &&
    resourceNameMatches rule request.Name
  else
    verbMatches rule request.Verb && nonResourceURLMatches rule request.Path

/-- Modelled from the spec (§6, §4.1): whether a binding subject applies to an
identity.  A `User` subject matches by username, a `Group` subject by group
membership, a `ServiceAccount` subject by the reconstructed
`system:serviceaccount:<ns>:<name>` username (defaulting the namespace to the
binding's namespace). -/
def appliesToUser (u : UserInfo) (s : Subject) (ns : String) : Bool :=
  if s.Kind == "User" then u.name == s.Name
  else if s.Kind == "Group" then u.groups.contains s.Name
  else if s.Kind == "ServiceAccount" then
    let saNs := if s.Namespace.isEmpty then ns else s.Namespace
    !saNs.isEmpty && u.name == "system:serviceaccount:" ++ saNs ++ ":" ++ s.Name
  else false

/-- Modelled from the spec (§6): resolve a cluster role binding's `roleRef`
to its rule list (empty when the reference does not resolve). -/
def clusterRoleRefRules (objs : RBACObjects) (ref : RoleRef) : List PolicyRule :=
  if ref.Kind == "ClusterRole" then
    match objs.ClusterRoles.find? (fun r => r.meta.Name == ref.Name) with
    | some r => r.Rules
    | none => []
  else []

/-- Modelled from the spec (§6): resolve a role binding's `roleRef` inside a
namespace. -/
def roleRefRules (objs : RBACObjects) (ref : RoleRef) (ns : String) : List PolicyRule :=
  if ref.Kind == "Role" then
    match objs.Roles.find? (fun r => r.meta.Namespace == ns && r.meta.Name == ref.Name) with
    | some r => r.Rules
    | none => []
  else clusterRoleRefRules objs ref

/-- Modelled from the spec (§6): the RBAC authorizer over a policy snapshot.
Cluster role bindings always apply; role bindings apply only for requests
inside their namespace. -/
def authorize (objs : RBACObjects) (request : AttributesRecord) : Bool :=
  (objs.ClusterRoleBindings.any fun b =>
    (b.Subjects.any fun s => appliesToUser request.User s "") &&
    (clusterRoleRefRules objs b.RoleRef).any (ruleAllows request)) ||
  (!request.Namespace.isEmpty &&
   objs.RoleBindings.any fun b =>
     b.meta.Namespace == request.Namespace &&
     (b.Subjects.any fun s => appliesToUser request.User s request.Namespace) &&
     (roleRefRules objs b.RoleRef request.Namespace).any (ruleAllows request))

/-- Whether a bare rule list authorizes an attempt (the rules of a single role,
ignoring binding subjects): used to state that compaction preserves the union
of permissions granted by a role's rule list. -/
def rulesAuthorize (rules : List PolicyRule) (request : AttributesRecord) : Bool :=
  rules.any (ruleAllows request)

/-! ### Request sorting (`sortRequests`, src/unnamed/part_003 lines 115-174)

Go's `sort.SliceStable` with the comparator below is embedded as Mathlib's
stable insertion sort over the reflexive closure `requestLE a b = !(requestLess b a)`
of the comparator. -/

/-- The `less` comparator of `sortRequests` (src/unnamed/part_003 lines
116-173), transcribed clause by clause. -/
def requestLess (ri rj : AttributesRecord) : Bool :=
  if ri.ResourceRequest != rj.ResourceRequest then
    !ri.ResourceRequest
  else if ri.ResourceRequest then
    if ri.Namespace.isEmpty != rj.Namespace.isEmpty then ri.Namespace.isEmpty
    else if ri.Name.isEmpty != rj.Name.isEmpty then ri.Name.isEmpty
    else if ri.Verb == "list" && rj.Verb == "get" then true
    else if ri.Verb == "get" && rj.Verb == "list" then false
    else match compare ri.APIGroup rj.APIGroup with
      | .lt => true
      | .gt => false
      | .eq => match compare ri.Resource rj.Resource with
        | .lt => true
        | .gt => false
        | .eq => match compare ri.Subresource rj.Subresource with
          | .lt => true
          | .gt => false
          | .eq => match compare ri.Namespace rj.Namespace with
            | .lt => true
            | .gt => false
            | .eq => match compare ri.Name rj.Name with
              | .lt => true
              | .gt => false
              | .eq => match compare ri.Verb rj.Verb with
                | .lt => true
                | .gt => false
                | .eq => false
  else
    match compare ri.Verb rj.Verb with
    | .lt => true
    | .gt => false
    | .eq => match compare ri.Path rj.Path with
      | .lt => true
      | .gt => false
      | .eq => false

/-- The non-strict order used for the stable sort: `a` may stay before `b`
exactly when `b` is not strictly before `a`. -/
def requestLE (a b : AttributesRecord) : Bool := !(requestLess b a)

instance : DecidableRel (fun a b : AttributesRecord => requestLE a b = true) :=
  fun a b => inferInstanceAs (Decidable (_ = true))

/-- `sortRequests` (src/unnamed/part_003 lines 115-174): the stable sort of
the request slice by `requestLess`. -/
def sortRequests (l : List AttributesRecord) : List AttributesRecord :=
  List.insertionSort (fun a b => requestLE a b = true) l

/-! ### Rule compaction (`compactRules`, src/unnamed/part_003 lines 46-113) -/

/-- `sets.NewString(l...).List()`: the sorted duplicate-free list of a string
set, built by sorted insertion. -/
def insertSorted (a : String) : List String → List String
  | [] => [a]
  | b :: l =>
    match compare a b with
    | .lt => a :: b :: l
    | .eq => b :: l
    | .gt => b :: insertSorted a l

/-- The sorted unique list of the given strings (`sets.String.List`). -/
def stringSetList (l : List String) : List String :=
  l.foldl (fun acc s => insertSorted s acc) []

/-- Modelled from the spec (§4.6 step 1): the vendored
`validation.BreakdownRule`, decomposing a rule into single-verb, single-group,
single-resource, single-name atoms, and single-verb single-URL atoms for the
non-resource part. -/
def BreakdownRule (rule : PolicyRule) : List PolicyRule :=
  (rule.APIGroups.flatMap fun g =>
    rule.Resources.flatMap fun res =>
      rule.Verbs.flatMap fun v =>
        if rule.ResourceNames.isEmpty then
          [{ Verbs := [v], APIGroups := [g], Resources := [res],
             ResourceNames := [], NonResourceURLs := [] }]
        else
          rule.ResourceNames.map fun n =>
            { Verbs := [v], APIGroups := [g], Resources := [res],
              ResourceNames := [n], NonResourceURLs := [] }) ++
  (rule.NonResourceURLs.flatMap fun u =>
    rule.Verbs.map fun v =>
      { Verbs := [v], APIGroups := [], Resources := [],
        ResourceNames := [], NonResourceURLs := [u] })

/-- Two rules agree on everything except possibly their verbs: the grouping
key of primitive compaction. -/
def sameCompactKey (a b : PolicyRule) : Bool :=
  a.APIGroups == b.APIGroups && a.Resources == b.Resources &&
  a.ResourceNames == b.ResourceNames && a.NonResourceURLs == b.NonResourceURLs

/-- One step of primitive compaction: union the verbs into an existing entry
with the same key, else append. -/
def primitiveCompactInsert (acc : List PolicyRule) (rule : PolicyRule) : List PolicyRule :=
  if acc.any (fun e => sameCompactKey e rule) then
    acc.map fun e => if sameCompactKey e rule then { e with Verbs := e.Verbs ++ rule.Verbs } else e
  else acc ++ [rule]

/-- Modelled from the spec (§4.6 step 2, §7): the vendored
`validation.CompactRules`, grouping atoms whose (apiGroups, resources,
resourceNames, nonResourceURLs) are identical and unioning their verb sets.
Its Go signature is fallible; the groups are returned here in first-encounter
order (the Go implementation collects them in a map and emits them in map
iteration order, which is unspecified — see `compactRulesP`). -/
def CompactRules (rules : List PolicyRule) : Except String (List PolicyRule) :=
  .ok (rules.foldl primitiveCompactInsert [])

/-- A rule with its `ResourceNames` stripped (src/unnamed/part_003 lines
72-74, 76-78): the comparison key of the name-accumulation step. -/
def stripNames (r : PolicyRule) : PolicyRule := { r with ResourceNames := [] }

/-- A rule with its `Resources` stripped (src/unnamed/part_003 lines 69-71,
88-90): the comparison key of the resource-accumulation step. -/
def stripResources (r : PolicyRule) : PolicyRule := { r with Resources := [] }

/-- Merge by union of resource names (src/unnamed/part_003 lines 80-83). -/
def mergeNamesInto (acc rule : PolicyRule) : PolicyRule :=
  { acc with ResourceNames := stringSetList (acc.ResourceNames ++ rule.ResourceNames) }

/-- Merge by union of resources (src/unnamed/part_003 lines 92-95). -/
def mergeResourcesInto (acc rule : PolicyRule) : PolicyRule :=
  { acc with Resources := stringSetList (acc.Resources ++ rule.Resources) }

/-- The inner accumulator scan of `compactRules` (src/unnamed/part_003 lines
75-99): merge the rule into the first accumulator it matches — by resource
names if the two differ at most in `ResourceNames`, else by resources if they
differ at most in `Resources` — and append it if no accumulator matches. -/
def accumulateRule (rule : PolicyRule) : List PolicyRule → List PolicyRule
  | [] => [rule]
  | acc :: rest =>
    if stripNames rule == stripNames acc then mergeNamesInto acc rule :: rest
    else if stripResources rule == stripResources acc then mergeResourcesInto acc rule :: rest
    else acc :: accumulateRule rule rest

/-- One iteration of the accumulation loop (src/unnamed/part_003 lines 61-103):
non-resource rules accumulate as-is; resource rules go through
`accumulateRule`. -/
def accumulateStep (acc : List PolicyRule) (rule : PolicyRule) : List PolicyRule :=
  if rule.Resources.isEmpty then acc ++ [rule] else accumulateRule rule acc

/-- The name/resource accumulation phase of `compactRules` (src/unnamed/
part_003 lines 58-103). -/
def accumulateRules (rules : List PolicyRule) : List PolicyRule :=
  rules.foldl accumulateStep []

/-- Render a string list the way Go's `%q` renders a `[]string`. -/
def quoteStrings (l : List String) : String :=
  "[" ++ String.intercalate " " (l.map fun s => "\x22" ++ s ++ "\x22") ++ "]"

/-- Modelled from the spec (§4.6 step 6): the vendored
`rbacv1helper.CompactString`, a canonical compact string rendering of a rule
listing each non-empty field. -/
def CompactString (r : PolicyRule) : String :=
  "PolicyRule\x7b" ++
    String.intercalate ", "
      ((if r.APIGroups.isEmpty then [] else ["APIGroups:" ++ quoteStrings r.APIGroups]) ++
       (if r.Resources.isEmpty then [] else ["Resources:" ++ quoteStrings r.Resources]) ++
       (if r.NonResourceURLs.isEmpty then []
        else ["NonResourceURLs:" ++ quoteStrings r.NonResourceURLs]) ++
       (if r.ResourceNames.isEmpty then []
        else ["ResourceNames:" ++ quoteStrings r.ResourceNames]) ++
       (if r.Verbs.isEmpty then [] else ["Verbs:" ++ quoteStrings r.Verbs])) ++
  "\x7d"

/-- The final rule-ordering comparator of `compactRules` (src/unnamed/part_003
lines 105-111): by joined API groups, then by compact string. -/
def ruleLess (a b : PolicyRule) : Bool :=
  match compare (String.intercalate "," a.APIGroups) (String.intercalate "," b.APIGroups) with
  | .lt => true
  | .gt => false
  | .eq => compare (CompactString a) (CompactString b) == .lt

instance : DecidableRel (fun a b : PolicyRule => (!(ruleLess b a)) = true) :=
  fun a b => inferInstanceAs (Decidable (_ = true))

/-- The final stable sort of `compactRules` (src/unnamed/part_003 lines
105-111). -/
def sortRules (l : List PolicyRule) : List PolicyRule :=
  List.insertionSort (fun a b => (!(ruleLess b a)) = true) l

/-- `compactRules` (src/unnamed/part_003 lines 46-113), parameterized by the
breakdown/recompact step so its error fallback (lines 52-54) can be stated:
break every rule down, recompact, bail out with the original rules on error,
dedupe and sort each verb list, run the accumulation phase, and sort. -/
def compactRulesWith (f : List PolicyRule → Except String (List PolicyRule))
    (rules : List PolicyRule) : List PolicyRule :=
  match f (rules.flatMap BreakdownRule) with
  | .error _ => rules
  | .ok compacted =>
    sortRules (accumulateRules (compacted.map fun r => { r with Verbs := stringSetList r.Verbs }))

/-- `compactRules` with the order in which `CompactRules` emits its merged
groups made explicit: `σ` stands for the Go map iteration order of the
vendored `CompactRules`, which is unspecified, so every execution of the Go
code realizes `compactRulesP σ` for some permutation `σ` of the groups. -/
def compactRulesP (σ : List PolicyRule → List PolicyRule) :
    List PolicyRule → List PolicyRule :=
  compactRulesWith fun l => (CompactRules l).map σ

/-- `compactRules` (src/unnamed/part_003 lines 46-113) with the groups in
first-encounter order. -/
def compactRules : List PolicyRule → List PolicyRule :=
  compactRulesWith CompactRules

/-! ### The generator (`Generate`, src/unnamed/part_001 lines 52-205) -/

/-- The canonical-key erasure of `Generate` (src/unnamed/part_001 lines
106-113 for the processed request, lines 123-129 for each scanned attempt):
erase the name when name-expansion is on, the namespace when
namespace-expansion is on, and always the path. -/
def eraseForKey (options : GenerateOptions) (a : AttributesRecord) : AttributesRecord :=
  let a1 := if options.ExpandMultipleNamesToUnnamed then { a with Name := "" } else a
  let a2 := if options.ExpandMultipleNamespacesToClusterScoped then
    { a1 with Namespace := "" } else a1
  { a2 with Path := "" }

/-- One iteration of the broadening scan (src/unnamed/part_001 lines 117-138):
skip non-resource attempts; when the scanned attempt's erasure equals the
processed request's canonical key, erase the request's namespace (if
namespace-expansion is on and the attempt has a different non-empty namespace)
and its name (if name-expansion is on and the attempt has a different
non-empty name). -/
def broadenStep (options : GenerateOptions) (requestCopy : AttributesRecord)
    (request a : AttributesRecord) : AttributesRecord :=
  let differentNamespace := !a.Namespace.isEmpty && a.Namespace != request.Namespace
  let differentName := !a.Name.isEmpty && a.Name != request.Name
  if !a.ResourceRequest then request
  else if eraseForKey options a == requestCopy then
    let request1 :=
      if options.ExpandMultipleNamespacesToClusterScoped && differentNamespace then
        { request with Namespace := "" }
      else request
    if options.ExpandMultipleNamesToUnnamed && differentName then
      { request1 with Name := "" }
    else request1
  else request

/-- The broadening decision of `Generate` (src/unnamed/part_001 lines
106-139): under the guard of line 115, scan every attempt and erase the
processed request's namespace/name as decided by `broadenStep`. -/
def broaden (options : GenerateOptions) (all : List AttributesRecord)
    (request : AttributesRecord) : AttributesRecord :=
  let requestCopy := eraseForKey options request
  if (!request.Namespace.isEmpty && options.ExpandMultipleNamespacesToClusterScoped) ||
     (!request.Name.isEmpty && options.ExpandMultipleNamesToUnnamed) then
    all.foldl (broadenStep options requestCopy) request
  else request

/-- The generator's mutable state during one `Generate` pass: the single
cluster role/binding pair and the per-namespace role/binding pairs in
insertion order (the Go code's `generated` lists plus the `clusterRole` /
`namespacedRole` lookup structures, which always point into those lists). -/
structure GenState where
  clusterRole : Option ClusterRole
  clusterRoleBinding : Option ClusterRoleBinding
  Roles : List Role
  RoleBindings : List RoleBinding
  deriving DecidableEq

/-- The empty generator state. -/
def initGenState : GenState := ⟨none, none, [], []⟩

/-- The `RBACObjects` snapshot of the current state (what the generated-policy
authorizer sees, and what `Generate` returns before compaction). -/
def generatedObjects (s : GenState) : RBACObjects :=
  { Roles := s.Roles, RoleBindings := s.RoleBindings,
    ClusterRoles := s.clusterRole.toList,
    ClusterRoleBindings := s.clusterRoleBinding.toList }

/-- `ensureClusterRoleAndBinding` (src/unnamed/part_001 lines 161-182): return
the state unchanged when the cluster role already exists, else create the
role and its binding to the given subject. -/
def ensureClusterRoleAndBinding (options : GenerateOptions) (s : GenState)
    (subject : Subject) : GenState :=
  match s.clusterRole with
  | some _ => s
  | none =>
    { s with
      clusterRole := some
        { meta := { Name := options.Name, Namespace := "", Labels := options.Labels },
          Rules := [] },
      clusterRoleBinding := some
        { meta := { Name := options.Name, Namespace := "", Labels := options.Labels },
          RoleRef := { APIGroup := rbacGroupName, Kind := "ClusterRole", Name := options.Name },
          Subjects := [subject] } }

/-- Append a rule to the (existing) cluster role, mirroring the Go append
through the `clusterRole` pointer. -/
def appendClusterRule (s : GenState) (rule : PolicyRule) : GenState :=
  { s with clusterRole := s.clusterRole.map fun r => { r with Rules := r.Rules ++ [rule] } }

/-- Whether a role for the namespace already exists (the Go
`namespacedRole[namespace] != nil` check). -/
def hasNamespacedRole (s : GenState) (ns : String) : Bool :=
  s.Roles.any fun r => r.meta.Namespace == ns

/-- `ensureNamespacedRoleAndBinding` (src/unnamed/part_001 lines 184-205). -/
def ensureNamespacedRoleAndBinding (options : GenerateOptions) (s : GenState)
    (subject : Subject) (ns : String) : GenState :=
  if hasNamespacedRole s ns then s
  else
    { s with
      Roles := s.Roles ++
        [{ meta := { Name := options.Name, Namespace := ns, Labels := options.Labels },
           Rules := [] }],
      RoleBindings := s.RoleBindings ++
        [{ meta := { Name := options.Name, Namespace := ns, Labels := options.Labels },
           RoleRef := { APIGroup := rbacGroupName, Kind := "Role", Name := options.Name },
           Subjects := [subject] }] }

/-- Append a rule to the namespace's role, mirroring the Go append through the
`namespacedRole[namespace]` pointer. -/
def appendNamespacedRule (s : GenState) (ns : String) (rule : PolicyRule) : GenState :=
  { s with Roles := s.Roles.map fun r =>
      if r.meta.Namespace == ns then { r with Rules := r.Rules ++ [rule] } else r }

/-- The body of the `Generate` loop for one request (src/unnamed/part_001
lines 92-148): skip when the existing or the already-generated policy
authorizes it; handle non-resource requests with a verb/path rule in the
cluster role; otherwise broaden and place the resource rule in the cluster
role or the namespace's role. -/
def generateStep (options : GenerateOptions) (existing : RBACObjects)
    (all : List AttributesRecord) (s : GenState) (request : AttributesRecord) : GenState :=
  if authorize existing request then s
  else if authorize (generatedObjects s) request then s
  else if !request.ResourceRequest then
    appendClusterRule (ensureClusterRoleAndBinding options s (userToSubject request.User))
      { Verbs := [request.Verb], APIGroups := [], Resources := [],
        ResourceNames := [], NonResourceURLs := [request.Path] }
  else
    let request := broaden options all request
    if request.Namespace.isEmpty then
      appendClusterRule (ensureClusterRoleAndBinding options s (userToSubject request.User))
        (attributesToResourceRule request options)
    else
      appendNamespacedRule
        (ensureNamespacedRoleAndBinding options s (userToSubject request.User)
          request.Namespace)
        request.Namespace (attributesToResourceRule request options)

/-- `Generator` (src/unnamed/part_001 lines 52-80): options, the
caller-supplied existing policy, and the caller-supplied request slice. -/
structure Generator where
  Options : GenerateOptions
  existing : RBACObjects
  requests : List AttributesRecord
  deriving DecidableEq

/-- `Generate` (src/unnamed/part_001 lines 82-159) with the order in which the
vendored `CompactRules` emits its merged groups made explicit (see
`compactRulesP`): sort the requests, run the loop, then compact each role's
rule list. -/
def GenerateP (σ : List PolicyRule → List PolicyRule) (g : Generator) : RBACObjects :=
  let sorted := sortRequests g.requests
  let s := sorted.foldl (generateStep g.Options g.existing sorted) initGenState
  let objs := generatedObjects s
  { objs with
    ClusterRoles := objs.ClusterRoles.map fun r => { r with Rules := compactRulesP σ r.Rules },
    Roles := objs.Roles.map fun r => { r with Rules := compactRulesP σ r.Rules } }

/-- `Generate` (src/unnamed/part_001 lines 82-159) with the compaction groups
in first-encounter order. -/
def Generate (g : Generator) : RBACObjects :=
  let sorted := sortRequests g.requests
  let s := sorted.foldl (generateStep g.Options g.existing sorted) initGenState
  let objs := generatedObjects s
  { objs with
    ClusterRoles := objs.ClusterRoles.map fun r => { r with Rules := compactRules r.Rules },
    Roles := objs.Roles.map fun r => { r with Rules := compactRules r.Rules } }

/-- `Generate` together with the caller-visible state of the request slice
after the call: the Go code sorts `g.requests` in place (src/unnamed/part_001
line 90), so after `Generate` returns the caller's slice holds the sorted
requests. -/
def GenerateFull (g : Generator) : RBACObjects × List AttributesRecord :=
  (Generate g, sortRequests g.requests)

/-! ### The sorting precedence as the specification words it

For the comparator claim, the precedence of spec.md §4.2 is written a second
time, independently of the transcription of the Go comparator: as a
lexicographic chain of `Ordering`s.  `requestLess` is proved equal to it. -/

/-- `true` ranks strictly before `false` (used for "non-resource precede
resource", "cluster-scoped precede namespaced", "unnamed precede named"). -/
def ordOfBoolPair (x y : Bool) : Ordering :=
  if x == y then .eq else if x then .lt else .gt

/-- The explicit `list`-before-`get` verb precedence of spec.md §4.2 item 4;
all other verb pairs are left to the later lexicographic comparison. -/
def listGetOrd (vi vj : String) : Ordering :=
  if vi == "list" && vj == "get" then .lt
  else if vi == "get" && vj == "list" then .gt
  else .eq

/-- The sorting precedence exactly as the specification states it (spec.md
§4.2 items 1-5): non-resource before resource; among resource requests,
empty-namespace first, then unnamed first, then `list` before `get`, then
lexicographic on (apiGroup, resource, subresource, namespace, name, verb);
among non-resource requests, lexicographic on (verb, path). -/
def claimCmp (a b : AttributesRecord) : Ordering :=
  (ordOfBoolPair (!a.ResourceRequest) (!b.ResourceRequest)).then
    (if a.ResourceRequest then
      (ordOfBoolPair a.Namespace.isEmpty b.Namespace.isEmpty).then
        ((ordOfBoolPair a.Name.isEmpty b.Name.isEmpty).then
          ((listGetOrd a.Verb b.Verb).then
            ((compare a.APIGroup b.APIGroup).then
              ((compare a.Resource b.Resource).then
                ((compare a.Subresource b.Subresource).then
                  ((compare a.Namespace b.Namespace).then
                    ((compare a.Name b.Name).then
                      (compare a.Verb b.Verb))))))))
     else (compare a.Verb b.Verb).then (compare a.Path b.Path))

/-- The claimed precedence as a strict comparator. -/
def claimRequestLess (a b : AttributesRecord) : Bool := claimCmp a b == .lt

/-! ### Pairing invariant -/

/-- The pairing/subject invariant maintained by the generator state for a
fixed identity `u`: the cluster role and its binding exist together with
matching metadata, the binding's `roleRef` names the role, its subject list is
exactly the mapped identity; the namespaced roles and bindings pair up
index-by-index the same way; and role namespaces are pairwise distinct. -/
def PairInv (u : UserInfo) (s : GenState) : Prop :=
  (match s.clusterRole, s.clusterRoleBinding with
   | none, none => True
   | some cr, some crb =>
     crb.meta.Name = cr.meta.Name ∧ crb.meta.Namespace = cr.meta.Namespace ∧
     crb.RoleRef = ⟨rbacGroupName, "ClusterRole", cr.meta.Name⟩ ∧
     crb.Subjects = [userToSubject u]
   | _, _ => False) ∧
  List.Forall₂ (fun (ro : Role) (rb : RoleBinding) =>
      rb.meta.Name = ro.meta.Name ∧ rb.meta.Namespace = ro.meta.Namespace ∧
      rb.RoleRef = ⟨rbacGroupName, "Role", ro.meta.Name⟩ ∧
      rb.Subjects = [userToSubject u])
    s.Roles s.RoleBindings ∧
  (s.Roles.map fun ro => ro.meta.Namespace).Nodup

/-! ### Concrete instances used by counterexamples and witnesses -/

/-- The test identity of the repository's own test fixtures. -/
def bobUser : UserInfo := ⟨"bob", ["system:authenticated"]⟩

/-- A second identity, for the multi-user scenario. -/
def aliceUser : UserInfo := ⟨"alice", ["system:authenticated"]⟩

/-- `bob` gets the cluster-scoped pod `pod1`. -/
def reqGetPodsPod1 : AttributesRecord :=
  { User := bobUser, Verb := "get", Namespace := "", APIGroup := "", APIVersion := "",
    Resource := "pods", Subresource := "", Name := "pod1", ResourceRequest := true, Path := "" }

/-- `bob` gets pods (unnamed) in namespace `ns1`. -/
def reqGetPodsNs1 : AttributesRecord := { reqGetPodsPod1 with Namespace := "ns1", Name := "" }

/-- `bob` gets pods (unnamed) in namespace `ns2`. -/
def reqGetPodsNs2 : AttributesRecord := { reqGetPodsPod1 with Namespace := "ns2", Name := "" }

/-- The generator of the soundness counterexample: default options, no
existing policy, and the three attempts above. -/
def soundnessGenerator : Generator :=
  ⟨DefaultGenerateOptions, emptyRBACObjects, [reqGetPodsPod1, reqGetPodsNs1, reqGetPodsNs2]⟩

/-- A rule granting `get` on pods restricted to the name `pod1`. -/
def namedPodsRule : PolicyRule := ⟨["get"], [""], ["pods"], ["pod1"], []⟩

/-- A rule granting `get` on pods for any name. -/
def unnamedPodsRule : PolicyRule := ⟨["get"], [""], ["pods"], [], []⟩

/-- An attempt to get the pod named `pod2`: allowed by `unnamedPodsRule`,
not by `namedPodsRule`. -/
def getPod2Attempt : AttributesRecord := { reqGetPodsPod1 with Name := "pod2" }

/-- `bob` gets the cluster-scoped pod `a`. -/
def reqGetPodsA : AttributesRecord := { reqGetPodsPod1 with Name := "a" }

/-- `bob` gets the cluster-scoped secret `a`. -/
def reqGetSecretsA : AttributesRecord :=
  { reqGetPodsPod1 with Resource := "secrets", Name := "a" }

/-- The generator of the determinism counterexample. -/
def determinismGenerator : Generator :=
  ⟨DefaultGenerateOptions, emptyRBACObjects,
   [reqGetPodsA, reqGetSecretsA, reqGetPodsNs1, reqGetPodsNs2]⟩

/-- `bob` gets the node `node1`. -/
def reqGetNodesNode1 : AttributesRecord :=
  { reqGetPodsPod1 with Resource := "nodes", Name := "node1" }

/-- `bob` gets nodes, unnamed. -/
def reqGetNodesAll : AttributesRecord :=
  { reqGetPodsPod1 with Resource := "nodes", Name := "" }

/-- A generator whose request slice is not already in sorted order (named
before unnamed). -/
def mutationGenerator : Generator :=
  ⟨DefaultGenerateOptions, emptyRBACObjects, [reqGetNodesNode1, reqGetNodesAll]⟩

/-- `alice` performs a non-resource get of `/a`. -/
def aliceGetA : AttributesRecord :=
  { User := aliceUser, Verb := "get", Namespace := "", APIGroup := "", APIVersion := "",
    Resource := "", Subresource := "", Name := "", ResourceRequest := false, Path := "/a" }

/-- `bob` performs a non-resource get of `/b`. -/
def bobGetB : AttributesRecord := { aliceGetA with User := bobUser, Path := "/b" }

/-- A generator fed attempts of two distinct users. -/
def twoUserGenerator : Generator :=
  ⟨DefaultGenerateOptions, emptyRBACObjects, [aliceGetA, bobGetB]⟩

/-- The metadata every generated object carries under default options. -/
def defaultMeta : ObjectMeta := ⟨"audit2rbac", "", []⟩

/-- What `Generate` returns for `twoUserGenerator`: one cluster role holding
the rules of both users' attempts, bound solely to `alice`, the subject of
the first uncovered attempt. -/
def twoUserExpected : RBACObjects :=
  { Roles := [], RoleBindings := [],
    ClusterRoles :=
      [⟨defaultMeta, [⟨["get"], [], [], [], ["/a"]⟩, ⟨["get"], [], [], [], ["/b"]⟩]⟩],
    ClusterRoleBindings :=
      [⟨defaultMeta, ⟨rbacGroupName, "ClusterRole", "audit2rbac"⟩,
        [⟨"User", rbacGroupName, "alice", ""⟩]⟩] }

/-- A state in which the cluster role/binding pair already exists. -/
def existingClusterState : GenState :=
  ⟨some ⟨defaultMeta, []⟩,
   some ⟨defaultMeta, ⟨rbacGroupName, "ClusterRole", "audit2rbac"⟩,
     [⟨"User", rbacGroupName, "alice", ""⟩]⟩,
   [], []⟩

/-- Whether one scanned attempt `a` makes the broadening scan erase the
namespace of a request whose current namespace is `ns`: `a` is a resource
attempt, its erasure matches the canonical key, and it has a different
non-empty namespace. -/
def broadenNsTrigger (options : GenerateOptions) (key : AttributesRecord) (ns : String)
    (a : AttributesRecord) : Bool :=
  a.ResourceRequest && (eraseForKey options a == key) &&
    !a.Namespace.isEmpty && (a.Namespace != ns)

/-- Whether one scanned attempt `a` makes the broadening scan erase the name
of a request whose current name is `nm`. -/
def broadenNameTrigger (options : GenerateOptions) (key : AttributesRecord) (nm : String)
    (a : AttributesRecord) : Bool :=
  a.ResourceRequest && (eraseForKey options a == key) &&
    !a.Name.isEmpty && (a.Name != nm)

/-! ## Theorems -/

/-- One iteration of the broadening scan in closed form: erase the namespace
when namespace-expansion is on and `a` triggers it, erase the name when
name-expansion is on and `a` triggers it, and change nothing else. -/
theorem broadenStep_eq (options : GenerateOptions) (key req a : AttributesRecord) :
    broadenStep options key req a =
      { req with
        Namespace :=
          if options.ExpandMultipleNamespacesToClusterScoped &&
             broadenNsTrigger options key req.Namespace a then "" else req.Namespace,
        Name :=
          if options.ExpandMultipleNamesToUnnamed &&
             broadenNameTrigger options key req.Name a then "" else req.Name } := by
  simp only [broadenStep, broadenNsTrigger, broadenNameTrigger]
  by_cases hrr : a.ResourceRequest = true <;>
  by_cases hk : (eraseForKey options a == key) = true <;>
  by_cases h1 : (!a.Namespace.isEmpty && (a.Namespace != req.Namespace)) = true <;>
  by_cases h2 : (!a.Name.isEmpty && (a.Name != req.Name)) = true <;>
  by_cases hc1 : options.ExpandMultipleNamespacesToClusterScoped = true <;>
  by_cases hc2 : options.ExpandMultipleNamesToUnnamed = true <;>
  simp_all [Bool.and_assoc] <;> split_ifs <;> simp_all

/-- The namespace after the whole broadening scan, in closed form over the
initial request. -/
theorem foldl_broadenStep_Namespace (options : GenerateOptions) (key : AttributesRecord) :
    ∀ (all : List AttributesRecord) (req : AttributesRecord),
      (all.foldl (broadenStep options key) req).Namespace =
        if options.ExpandMultipleNamespacesToClusterScoped &&
           all.any (broadenNsTrigger options key req.Namespace) then "" else req.Namespace
  | [], req => by simp
  | a :: rest, req => by
    rw [List.foldl_cons, foldl_broadenStep_Namespace options key rest, broadenStep_eq]
    by_cases hc : options.ExpandMultipleNamespacesToClusterScoped = true
    · by_cases ht : broadenNsTrigger options key req.Namespace a = true
      · simp [hc, ht, List.any_cons]
      · simp [hc, ht, List.any_cons]
    · simp_all

/-- The name after the whole broadening scan, in closed form over the initial
request. -/
theorem foldl_broadenStep_Name (options : GenerateOptions) (key : AttributesRecord) :
    ∀ (all : List AttributesRecord) (req : AttributesRecord),
      (all.foldl (broadenStep options key) req).Name =
        if options.ExpandMultipleNamesToUnnamed &&
           all.any (broadenNameTrigger options key req.Name) then "" else req.Name
  | [], req => by simp
  | a :: rest, req => by
    rw [List.foldl_cons, foldl_broadenStep_Name options key rest, broadenStep_eq]
    by_cases hc : options.ExpandMultipleNamesToUnnamed = true
    · by_cases ht : broadenNameTrigger options key req.Name a = true
      · simp [hc, ht, List.any_cons]
      · simp [hc, ht, List.any_cons]
    · simp_all

/-- The broadening scan touches nothing except the namespace and the name. -/
theorem foldl_broadenStep_fields (options : GenerateOptions) (key : AttributesRecord) :
    ∀ (all : List AttributesRecord) (req : AttributesRecord),
      (all.foldl (broadenStep options key) req).User = req.User ∧
      (all.foldl (broadenStep options key) req).Verb = req.Verb ∧
      (all.foldl (broadenStep options key) req).APIGroup = req.APIGroup ∧
      (all.foldl (broadenStep options key) req).APIVersion = req.APIVersion ∧
      (all.foldl (broadenStep options key) req).Resource = req.Resource ∧
      (all.foldl (broadenStep options key) req).Subresource = req.Subresource ∧
      (all.foldl (broadenStep options key) req).ResourceRequest = req.ResourceRequest ∧
      (all.foldl (broadenStep options key) req).Path = req.Path
  | [], req => by simp
  | a :: rest, req => by
    rw [List.foldl_cons]
    have h := foldl_broadenStep_fields options key rest (broadenStep options key req a)
    simpa [broadenStep_eq] using h

/-- String emptiness as disequality with the empty string literal. -/
theorem isEmpty_false_iff (s : String) : s.isEmpty = false ↔ s ≠ "" := by
  rw [Bool.eq_false_iff]
  exact not_congr (String.isEmpty_iff s)

/-- The namespace-erasure condition of the scan, as an existential over the
scanned attempts. -/
theorem nsTrigger_exists (options : GenerateOptions) (key : AttributesRecord) (ns : String)
    (all : List AttributesRecord) :
    (all.any (broadenNsTrigger options key ns) = true) ↔
      ∃ a ∈ all, a.ResourceRequest = true ∧ eraseForKey options a = key ∧
        a.Namespace ≠ "" ∧ a.Namespace ≠ ns := by
  simp [broadenNsTrigger, List.any_eq_true, Bool.and_eq_true, isEmpty_false_iff,
    Bool.not_eq_true', and_assoc]

/-- The name-erasure condition of the scan, as an existential over the
scanned attempts. -/
theorem nameTrigger_exists (options : GenerateOptions) (key : AttributesRecord) (nm : String)
    (all : List AttributesRecord) :
    (all.any (broadenNameTrigger options key nm) = true) ↔
      ∃ a ∈ all, a.ResourceRequest = true ∧ eraseForKey options a = key ∧
        a.Name ≠ "" ∧ a.Name ≠ nm := by
  simp [broadenNameTrigger, List.any_eq_true, Bool.and_eq_true, isEmpty_false_iff,
    Bool.not_eq_true', and_assoc]

/-- Claim C2: the broadening decision erases the request's namespace exactly
when namespace-expansion is enabled and some input attempt — a resource
request whose erasure (path always erased, name/namespace erased per the two
flags) equals the request's canonical key — has a different non-empty
namespace; symmetrically for the name with name-expansion; and the scan
changes no other field of the request. -/
theorem broaden_characterization (options : GenerateOptions) (all : List AttributesRecord)
    (r : AttributesRecord) :
    ((broaden options all r).Namespace = "" ↔
      r.Namespace = "" ∨
        (options.ExpandMultipleNamespacesToClusterScoped = true ∧
          ∃ a ∈ all, a.ResourceRequest = true ∧
            eraseForKey options a = eraseForKey options r ∧
            a.Namespace ≠ "" ∧ a.Namespace ≠ r.Namespace)) ∧
    ((broaden options all r).Name = "" ↔
      r.Name = "" ∨
        (options.ExpandMultipleNamesToUnnamed = true ∧
          ∃ a ∈ all, a.ResourceRequest = true ∧
            eraseForKey options a = eraseForKey options r ∧
            a.Name ≠ "" ∧ a.Name ≠ r.Name)) ∧
    ((broaden options all r).User = r.User ∧ (broaden options all r).Verb = r.Verb ∧
     (broaden options all r).APIGroup = r.APIGroup ∧
     (broaden options all r).APIVersion = r.APIVersion ∧
     (broaden options all r).Resource = r.Resource ∧
     (broaden options all r).Subresource = r.Subresource ∧
     (broaden options all r).ResourceRequest = r.ResourceRequest ∧
     (broaden options all r).Path = r.Path) := by
  simp only [broaden]
  by_cases hg : ((!r.Namespace.isEmpty && options.ExpandMultipleNamespacesToClusterScoped) ||
      (!r.Name.isEmpty && options.ExpandMultipleNamesToUnnamed)) = true
  · rw [if_pos hg]
    refine ⟨?_, ?_, foldl_broadenStep_fields options _ all r⟩
    · rw [foldl_broadenStep_Namespace]
      by_cases hc : (options.ExpandMultipleNamespacesToClusterScoped &&
          all.any (broadenNsTrigger options (eraseForKey options r) r.Namespace)) = true
      · rw [if_pos hc]
        rw [Bool.and_eq_true] at hc
        exact iff_of_true rfl
          (Or.inr ⟨hc.1, (nsTrigger_exists options _ r.Namespace all).mp hc.2⟩)
      · rw [if_neg hc]
        constructor
        · exact fun h => Or.inl h
        · rintro (h | ⟨hX, hex⟩)
          · exact h
          · exact absurd (by
              rw [Bool.and_eq_true]
              exact ⟨hX, (nsTrigger_exists options _ r.Namespace all).mpr hex⟩) hc
    · rw [foldl_broadenStep_Name]
      by_cases hc : (options.ExpandMultipleNamesToUnnamed &&
          all.any (broadenNameTrigger options (eraseForKey options r) r.Name)) = true
      · rw [if_pos hc]
        rw [Bool.and_eq_true] at hc
        exact iff_of_true rfl
          (Or.inr ⟨hc.1, (nameTrigger_exists options _ r.Name all).mp hc.2⟩)
      · rw [if_neg hc]
        constructor
        · exact fun h => Or.inl h
        · rintro (h | ⟨hX, hex⟩)
          · exact h
          · exact absurd (by
              rw [Bool.and_eq_true]
              exact ⟨hX, (nameTrigger_exists options _ r.Name all).mpr hex⟩) hc
  · rw [if_neg hg]
    rw [Bool.or_eq_true, not_or, Bool.and_eq_true, Bool.and_eq_true] at hg
    obtain ⟨hg1, hg2⟩ := hg
    refine ⟨?_, ?_, rfl, rfl, rfl, rfl, rfl, rfl, rfl, rfl⟩
    · constructor
      · exact fun h => Or.inl h
      · rintro (h | ⟨hX, -⟩)
        · exact h
        · by_contra hne
          exact hg1 ⟨by simpa [isEmpty_false_iff] using hne, hX⟩
    · constructor
      · exact fun h => Or.inl h
      · rintro (h | ⟨hX, -⟩)
        · exact h
        · by_contra hne
          exact hg2 ⟨by simpa [isEmpty_false_iff] using hne, hX⟩

/-- The inner accumulator scan, related to its first-match specification: a
resource rule is merged into the first accumulator it matches (by names when
they differ at most in `ResourceNames`, else by resources), and appended when
none matches. -/
theorem accumulateRule_spec (rule : PolicyRule) :
    ∀ acc : List PolicyRule,
      (acc.findIdx? (fun e => stripNames rule == stripNames e ||
          stripResources rule == stripResources e) = none →
        accumulateRule rule acc = acc ++ [rule]) ∧
      (∀ (j : Nat) (e : PolicyRule),
        acc.findIdx? (fun e => stripNames rule == stripNames e ||
            stripResources rule == stripResources e) = some j →
        acc[j]? = some e →
        accumulateRule rule acc = acc.set j
          (if stripNames rule == stripNames e then mergeNamesInto e rule
           else mergeResourcesInto e rule))
  | [] => ⟨fun _ => rfl, fun j e h => by simp at h⟩
  | a :: rest => by
    have ih := accumulateRule_spec rule rest
    by_cases h1 : (stripNames rule == stripNames a) = true
    · refine ⟨fun h => ?_, fun j e hj he => ?_⟩
      · rw [List.findIdx?_cons] at h
        simp [h1] at h
      · rw [List.findIdx?_cons] at hj
        simp only [h1, Bool.true_or, if_pos] at hj
        obtain rfl : (0 : Nat) = j := by simpa using hj
        simp only [List.getElem?_cons_zero, Option.some.injEq] at he
        subst he
        simp [accumulateRule, h1]
    · by_cases h2 : (stripResources rule == stripResources a) = true
      · refine ⟨fun h => ?_, fun j e hj he => ?_⟩
        · rw [List.findIdx?_cons] at h
          simp [h1, h2] at h
        · rw [List.findIdx?_cons] at hj
          simp only [h1, h2, Bool.false_or, if_pos] at hj
          obtain rfl : (0 : Nat) = j := by simpa using hj
          simp only [List.getElem?_cons_zero, Option.some.injEq] at he
          subst he
          simp [accumulateRule, h1, h2]
      · refine ⟨fun h => ?_, fun j e hj he => ?_⟩
        · rw [List.findIdx?_cons] at h
          simp only [h1, h2, Bool.or_self, if_neg, Bool.false_eq_true, not_false_iff,
            List.findIdx?_start_succ, Option.map_eq_none'] at h
          simp [accumulateRule, h1, h2, ih.1 h]
        · rw [List.findIdx?_cons] at hj
          simp only [h1, h2, Bool.or_self, if_neg, Bool.false_eq_true, not_false_iff,
            List.findIdx?_start_succ, Option.map_eq_some'] at hj
          obtain ⟨j', hj', rfl⟩ := hj
          rw [List.getElem?_cons_succ] at he
          simp [accumulateRule, h1, h2, ih.2 j' e hj' he]

/-- Claim C3: `compactRules` is the composition of breakdown, primitive
verb-merging compaction, verb dedup/sort, the accumulation phase and the final
sort; in the accumulation phase a non-resource rule accumulates as-is
(excluded from both merge steps), and a resource rule merges into the first
accumulator differing from it only in `resourceNames` (union of names) or,
failing that, only in `resources` (union of resources), and is appended when
no accumulator matches. -/
theorem compactRules_accumulation :
    (∀ rules : List PolicyRule,
      compactRules rules =
        sortRules (accumulateRules
          (((rules.flatMap BreakdownRule).foldl primitiveCompactInsert []).map
            fun r => { r with Verbs := stringSetList r.Verbs }))) ∧
    (∀ (acc : List PolicyRule) (rule : PolicyRule), rule.Resources = [] →
      accumulateStep acc rule = acc ++ [rule]) ∧
    (∀ (acc : List PolicyRule) (rule : PolicyRule), rule.Resources ≠ [] →
      (acc.findIdx? (fun e => stripNames rule == stripNames e ||
          stripResources rule == stripResources e) = none →
        accumulateStep acc rule = acc ++ [rule]) ∧
      (∀ (j : Nat) (e : PolicyRule),
        acc.findIdx? (fun e => stripNames rule == stripNames e ||
            stripResources rule == stripResources e) = some j →
        acc[j]? = some e →
        accumulateStep acc rule = acc.set j
          (if stripNames rule == stripNames e then mergeNamesInto e rule
           else mergeResourcesInto e rule))) := by
  refine ⟨fun rules => rfl, fun acc rule h => by simp [accumulateStep, h],
    fun acc rule h => ?_⟩
  have hne : rule.Resources.isEmpty = false := by
    rw [Bool.eq_false_iff]
    exact fun hh => h (by simpa using hh)
  have hstep : accumulateStep acc rule = accumulateRule rule acc := by
    simp [accumulateStep, hne]
  rw [hstep]
  exact accumulateRule_spec rule acc

/-- Witness for the accumulation phase: the unrestricted pods rule merges
into the named pods accumulator, taking the names branch first. -/
theorem compactRules_accumulation_witness :
    accumulateStep [namedPodsRule] unnamedPodsRule =
      [namedPodsRule].set 0
        (if stripNames unnamedPodsRule == stripNames namedPodsRule
         then mergeNamesInto namedPodsRule unnamedPodsRule
         else mergeResourcesInto namedPodsRule unnamedPodsRule) :=
  (compactRules_accumulation.2.2 [namedPodsRule] unnamedPodsRule (by decide)).2
    0 namedPodsRule (by decide) (by decide)

/-- A lexicographic step: a chained comparison is `lt` according to its first
component, with ties decided by the rest. -/
theorem then_lt_eq (o r : Ordering) :
    ((o.then r) == Ordering.lt) =
      (match o with
       | .lt => true
       | .gt => false
       | .eq => (r == Ordering.lt)) := by
  cases o <;> rfl

/-- Claim C5: the comparator of `sortRequests` realizes exactly the claimed
precedence (non-resource before resource; among resource requests
cluster-scoped first, then unnamed first, then `list` before `get`, then
lexicographic on apiGroup, resource, subresource, namespace, name, verb;
among non-resource requests lexicographic on verb, path), the sort permutes
its input, and it is stable: any pair already in order in the input stays in
that order in the output. -/
theorem sortRequests_spec :
    (∀ a b : AttributesRecord, requestLess a b = claimRequestLess a b) ∧
    (∀ l : List AttributesRecord, (sortRequests l).Perm l) ∧
    (∀ (a b : AttributesRecord) (l : List AttributesRecord),
      requestLE a b = true → [a, b].Sublist l → [a, b].Sublist (sortRequests l)) := by
  refine ⟨fun a b => ?_, fun l => List.perm_insertionSort _ l,
    fun a b l hab hsub => List.pair_sublist_insertionSort hab hsub⟩
  simp only [requestLess, claimRequestLess, claimCmp, ordOfBoolPair, listGetOrd]
  cases hRa : a.ResourceRequest <;> cases hRb : b.ResourceRequest <;>
    simp only [hRa, hRb, bne_self_eq_false, Bool.not_false, Bool.not_true, bne,
      beq_self_eq_true, Bool.false_eq_true, Bool.true_eq_false, if_true, if_false,
      ite_true, ite_false, then_lt_eq]
  · cases hv : compare a.Verb b.Verb <;> cases hp : compare a.Path b.Path <;> rfl
  · rfl
  · rfl
  · by_cases hn : a.Namespace.isEmpty = b.Namespace.isEmpty
    · by_cases hm : a.Name.isEmpty = b.Name.isEmpty
      · simp only [hn, hm, bne_self_eq_false, Bool.false_eq_true, if_false, ite_false,
          beq_self_eq_true, if_true, ite_true]
        by_cases hv1 : (a.Verb == "list" && b.Verb == "get") = true
        · simp [hv1]
        · by_cases hv2 : (a.Verb == "get" && b.Verb == "list") = true
          · simp [hv1, hv2]
          · simp only [hv1, hv2, Bool.false_eq_true, if_false, ite_false, then_lt_eq]
            cases hg : compare a.APIGroup b.APIGroup <;>
              cases hr : compare a.Resource b.Resource <;>
              cases hs : compare a.Subresource b.Subresource <;>
              cases hns : compare a.Namespace b.Namespace <;>
              cases hnm : compare a.Name b.Name <;>
              cases hvb : compare a.Verb b.Verb <;> rfl
      · rcases hx : a.Name.isEmpty <;> rcases hy : b.Name.isEmpty <;> simp_all
    · rcases hx : a.Namespace.isEmpty <;> rcases hy : b.Namespace.isEmpty <;>
        simp_all

/-- Invariant preservation along a fold. -/
theorem foldl_inv {α β : Type} {P : β → Prop} (f : β → α → β) :
    ∀ (l : List α) (s : β), P s → (∀ s' x, x ∈ l → P s' → P (f s' x)) → P (l.foldl f s)
  | [], s, h, _ => h
  | x :: l, s, h, hf =>
    foldl_inv f l (f s x) (hf s x (.head l) h) fun s' y hy => hf s' y (.tail x hy)

/-- The broadening scan does not change the requesting identity. -/
theorem broaden_User (options : GenerateOptions) (all : List AttributesRecord)
    (r : AttributesRecord) : (broaden options all r).User = r.User := by
  simp only [broaden]
  split
  · exact (foldl_broadenStep_fields options _ all r).1
  · rfl

/-- Creating the cluster role/binding pair preserves the pairing invariant. -/
theorem ensureCluster_PairInv (options : GenerateOptions) (u : UserInfo) (s : GenState)
    (h : PairInv u s) :
    PairInv u (ensureClusterRoleAndBinding options s (userToSubject u)) := by
  obtain ⟨h1, h2, h3⟩ := h
  cases hc : s.clusterRole with
  | some cr => simpa [ensureClusterRoleAndBinding, hc] using ⟨h1, h2, h3⟩
  | none =>
    cases hb : s.clusterRoleBinding with
    | some crb => rw [hc, hb] at h1; exact absurd h1 not_false
    | none =>
      simp only [ensureClusterRoleAndBinding, hc]
      exact ⟨⟨rfl, rfl, rfl, rfl⟩, h2, h3⟩

/-- Appending a rule to the cluster role preserves the pairing invariant. -/
theorem appendCluster_PairInv (u : UserInfo) (s : GenState) (rule : PolicyRule)
    (h : PairInv u s) : PairInv u (appendClusterRule s rule) := by
  obtain ⟨h1, h2, h3⟩ := h
  cases hc : s.clusterRole with
  | none =>
    cases hb : s.clusterRoleBinding with
    | some crb => rw [hc, hb] at h1; exact absurd h1 not_false
    | none => exact ⟨by simp [appendClusterRule, hc, hb], h2, h3⟩
  | some cr =>
    cases hb : s.clusterRoleBinding with
    | none => rw [hc, hb] at h1; exact absurd h1 not_false
    | some crb =>
      rw [hc, hb] at h1
      exact ⟨by simpa [appendClusterRule, hc, hb] using h1, h2, h3⟩

/-- Creating a namespace's role/binding pair preserves the pairing
invariant. -/
theorem ensureNamespaced_PairInv (options : GenerateOptions) (u : UserInfo) (s : GenState)
    (ns : String) (h : PairInv u s) :
    PairInv u (ensureNamespacedRoleAndBinding options s (userToSubject u) ns) := by
  obtain ⟨h1, h2, h3⟩ := h
  by_cases hh : hasNamespacedRole s ns = true
  · simpa [ensureNamespacedRoleAndBinding, hh] using ⟨h1, h2, h3⟩
  · have hns : ∀ ro ∈ s.Roles, ro.meta.Namespace ≠ ns := by
      intro ro hro heq
      exact hh (by simp [hasNamespacedRole, List.any_eq_true]; exact ⟨ro, hro, heq⟩)
    refine ⟨?_, ?_, ?_⟩ <;> simp only [ensureNamespacedRoleAndBinding, hh, if_neg,
      Bool.false_eq_true, not_false_iff]
    · exact h1
    · exact List.rel_append h2 (List.forall₂_cons.mpr ⟨⟨rfl, rfl, rfl, rfl⟩, List.Forall₂.nil⟩)
    · rw [List.map_append, List.nodup_append]
      refine ⟨h3, by simp, ?_⟩
      intro x hx
      simp only [List.mem_map] at hx
      obtain ⟨ro, hro, rfl⟩ := hx
      simp only [List.map_cons, List.map_nil, List.mem_singleton]
      exact hns ro hro

/-- Appending a rule to a namespace's role preserves the pairing invariant. -/
theorem appendNamespaced_PairInv (u : UserInfo) (s : GenState) (ns : String)
    (rule : PolicyRule) (h : PairInv u s) : PairInv u (appendNamespacedRule s ns rule) := by
  obtain ⟨h1, h2, h3⟩ := h
  refine ⟨h1, ?_, ?_⟩
  · simp only [appendNamespacedRule]
    rw [List.forall₂_map_left_iff]
    refine h2.imp fun ro rb hab => ?_
    obtain ⟨e1, e2, e3, e4⟩ := hab
    split <;> exact ⟨e1, e2, e3, e4⟩
  · simp only [appendNamespacedRule]
    rw [List.map_map]
    have : ((fun ro : Role => ro.meta.Namespace) ∘ fun ro : Role =>
        if ro.meta.Namespace == ns then { ro with Rules := ro.Rules ++ [rule] } else ro) =
        fun ro : Role => ro.meta.Namespace := by
      funext ro
      simp only [Function.comp]
      split <;> rfl
    rw [this]
    exact h3

/-- One iteration of the `Generate` loop preserves the pairing invariant when
the request belongs to the fixed identity. -/
theorem generateStep_PairInv (options : GenerateOptions) (existing : RBACObjects)
    (all : List AttributesRecord) (u : UserInfo) (s : GenState) (r : AttributesRecord)
    (hu : r.User = u) (h : PairInv u s) :
    PairInv u (generateStep options existing all s r) := by
  by_cases h1 : authorize existing r = true
  · simpa [generateStep, h1] using h
  · by_cases h2 : authorize (generatedObjects s) r = true
    · simpa [generateStep, h1, h2] using h
    · by_cases h3 : r.ResourceRequest = true
      · simp only [generateStep, h1, h2, h3, Bool.not_true, if_neg, Bool.false_eq_true,
          not_false_iff, if_pos]
        split
        · rw [broaden_User, hu]
          exact appendCluster_PairInv u _ _ (ensureCluster_PairInv options u s h)
        · rw [broaden_User, hu]
          exact appendNamespaced_PairInv u _ _ _ (ensureNamespaced_PairInv options u s _ h)
      · simp only [generateStep, h1, h2, h3, Bool.not_false, if_pos, Bool.false_eq_true,
          not_false_iff, if_neg]
        rw [hu]
        exact appendCluster_PairInv u _ _ (ensureCluster_PairInv options u s h)

/-- Claim C8: when all attempts belong to the target identity `u` (the tool's
input is the audit trail of a single identity), every generated role is paired
with exactly one binding — equal name, equal namespace, `roleRef` naming the
role — rendered as an index-by-index pairing of the two equal-length lists
together with pairwise-distinct role namespaces (so no second binding can
match a role), no binding is emitted without its role or vice versa, and every
binding's subject list is exactly the one mapped target subject. -/
theorem generate_pairing (g : Generator) (u : UserInfo)
    (hu : ∀ r ∈ g.requests, r.User = u) :
    List.Forall₂ (fun (cr : ClusterRole) (crb : ClusterRoleBinding) =>
        crb.meta.Name = cr.meta.Name ∧ crb.meta.Namespace = cr.meta.Namespace ∧
        crb.RoleRef = ⟨rbacGroupName, "ClusterRole", cr.meta.Name⟩ ∧
        crb.Subjects = [userToSubject u])
      (Generate g).ClusterRoles (Generate g).ClusterRoleBindings ∧
    (Generate g).ClusterRoles.length ≤ 1 ∧
    List.Forall₂ (fun (ro : Role) (rb : RoleBinding) =>
        rb.meta.Name = ro.meta.Name ∧ rb.meta.Namespace = ro.meta.Namespace ∧
        rb.RoleRef = ⟨rbacGroupName, "Role", ro.meta.Name⟩ ∧
        rb.Subjects = [userToSubject u])
      (Generate g).Roles (Generate g).RoleBindings ∧
    ((Generate g).Roles.map fun ro => ro.meta.Namespace).Nodup := by
  have hu' : ∀ r ∈ sortRequests g.requests, r.User = u := by
    intro r hr
    exact hu r (by simpa [sortRequests] using hr)
  have hinv : PairInv u ((sortRequests g.requests).foldl
      (generateStep g.Options g.existing (sortRequests g.requests)) initGenState) :=
    foldl_inv _ _ initGenState ⟨trivial, List.Forall₂.nil, List.nodup_nil⟩
      fun s' x hx hP => generateStep_PairInv _ _ _ u s' x (hu' x hx) hP
  set s := (sortRequests g.requests).foldl
      (generateStep g.Options g.existing (sortRequests g.requests)) initGenState with hsdef
  obtain ⟨h1, h2, h3⟩ := hinv
  have hG : Generate g =
      { Roles := s.Roles.map fun r => { r with Rules := compactRules r.Rules },
        RoleBindings := s.RoleBindings,
        ClusterRoles := s.clusterRole.toList.map fun r => { r with Rules := compactRules r.Rules },
        ClusterRoleBindings := s.clusterRoleBinding.toList } := rfl
  rw [hG]
  refine ⟨?_, ?_, ?_, ?_⟩
  · cases hc : s.clusterRole with
    | none =>
      cases hb : s.clusterRoleBinding with
      | none => exact List.Forall₂.nil
      | some crb => rw [hc, hb] at h1; exact h1.elim
    | some cr =>
      cases hb : s.clusterRoleBinding with
      | none => rw [hc, hb] at h1; exact h1.elim
      | some crb =>
        rw [hc, hb] at h1
        exact List.Forall₂.cons ⟨h1.1, h1.2.1, h1.2.2.1, h1.2.2.2⟩ List.Forall₂.nil
  · cases hc : s.clusterRole <;> simp
  · rw [List.forall₂_map_left_iff]
    exact h2.imp fun a b hab => hab
  · rw [List.map_map]
    have hmm : ((fun ro : Role => ro.meta.Namespace) ∘ fun r : Role =>
        { r with Rules := compactRules r.Rules }) = fun ro : Role => ro.meta.Namespace := rfl
    rw [hmm]
    exact h3

/-- Witness for the pairing theorem at a concrete single-user generator. -/
theorem generate_pairing_witness :
    List.Forall₂ (fun (cr : ClusterRole) (crb : ClusterRoleBinding) =>
        crb.meta.Name = cr.meta.Name ∧ crb.meta.Namespace = cr.meta.Namespace ∧
        crb.RoleRef = ⟨rbacGroupName, "ClusterRole", cr.meta.Name⟩ ∧
        crb.Subjects = [userToSubject bobUser])
      (Generate soundnessGenerator).ClusterRoles
      (Generate soundnessGenerator).ClusterRoleBindings ∧
    (Generate soundnessGenerator).ClusterRoles.length ≤ 1 ∧
    List.Forall₂ (fun (ro : Role) (rb : RoleBinding) =>
        rb.meta.Name = ro.meta.Name ∧ rb.meta.Namespace = ro.meta.Namespace ∧
        rb.RoleRef = ⟨rbacGroupName, "Role", ro.meta.Name⟩ ∧
        rb.Subjects = [userToSubject bobUser])
      (Generate soundnessGenerator).Roles (Generate soundnessGenerator).RoleBindings ∧
    ((Generate soundnessGenerator).Roles.map fun ro => ro.meta.Namespace).Nodup :=
  generate_pairing soundnessGenerator bobUser (by decide)

/-- Witness for the sorting theorem's stability clause at a concrete ordered
pair. -/
theorem sortRequests_spec_witness :
    [reqGetPodsNs1, reqGetPodsNs2].Sublist
      (sortRequests [reqGetPodsNs1, reqGetPodsNs2]) :=
  sortRequests_spec.2.2 reqGetPodsNs1 reqGetPodsNs2 [reqGetPodsNs1, reqGetPodsNs2]
    (by decide) (List.Sublist.refl _)

set_option maxRecDepth 1000000 in
/-- Claim C1 is violated by the code (the name-accumulation step of
`compactRules` merges the any-name rule `{get pods}` into the named rule
`{get pods [pod1]}`, discarding the any-name grant): for the three attempts
`get pods pod1` (cluster-scoped), `get pods` in `ns1` and `get pods` in
`ns2`, the attempt in `ns1` is in the input but the union of the (empty)
existing policy and the objects `Generate` returns does not authorize it. -/
theorem generate_soundness_code_bug :
    reqGetPodsNs1 ∈ soundnessGenerator.requests ∧
    authorize (unionRBACObjects soundnessGenerator.existing (Generate soundnessGenerator))
      reqGetPodsNs1 = false ∧
    (Generate soundnessGenerator).ClusterRoles.map (fun r => r.Rules) = [[namedPodsRule]] := by
  decide

set_option maxRecDepth 1000000 in
/-- Claim C6 is violated by the code: the rule list
`[{get pods [pod1]}, {get pods}]` authorizes getting the pod `pod2`, but
`compactRules` of that list (which merges the unrestricted rule into the named
one by "union of names") does not. -/
theorem compactRules_loses_permissions :
    rulesAuthorize [namedPodsRule, unnamedPodsRule] getPod2Attempt = true ∧
    rulesAuthorize (compactRules [namedPodsRule, unnamedPodsRule]) getPod2Attempt = false ∧
    compactRules [namedPodsRule, unnamedPodsRule] = [namedPodsRule] := by
  decide

set_option maxRecDepth 1000000 in
/-- Claim C7 is violated by the code: the order in which the vendored
`CompactRules` emits its merged groups is a Go map iteration order, and two
different orders of the same groups (the identity and the reversal, both
permutations) make `Generate` return different outputs for the same attempt
list, existing policy and options. -/
theorem generate_order_dependent :
    GenerateP id determinismGenerator ≠ GenerateP List.reverse determinismGenerator ∧
    ∀ l : List PolicyRule, (List.reverse l).Perm l :=
  ⟨by decide, fun l => List.reverse_perm l⟩

set_option maxRecDepth 1000000 in
/-- Claim C4 fails as stated: `Generate` sorts the caller's request slice in
place, so a request list that is not already sorted is reordered by the call
(here the named attempt precedes the unnamed one on input and follows it
afterwards). -/
theorem generate_mutates_requests :
    (GenerateFull mutationGenerator).2 ≠ mutationGenerator.requests := by decide

/-- Claim C4, amended: `Generate` leaves the existing-policy objects and the
contents of the individual attempt records untouched, but it reorders the
caller's request slice in place: after the call the slice holds exactly
`sortRequests` of the input, a permutation of it. -/
theorem generate_requests_after (g : Generator) :
    (GenerateFull g).1 = Generate g ∧
    (GenerateFull g).2 = sortRequests g.requests ∧
    List.Perm (sortRequests g.requests) g.requests :=
  ⟨rfl, rfl, List.perm_insertionSort _ _⟩

/-- Claim C9: when the breakdown/recompact step reports an error,
`compactRules` returns the original rule list unchanged (so `Generate`, whose
result type is not fallible, still returns the uncompacted but covering
rules); `compactRules` is this fallback structure instantiated with the
vendored recompact step, which in fact never errors. -/
theorem compactRules_error_fallback :
    (∀ (f : List PolicyRule → Except String (List PolicyRule))
       (rules : List PolicyRule) (e : String),
      f (rules.flatMap BreakdownRule) = .error e → compactRulesWith f rules = rules) ∧
    (∀ rules : List PolicyRule, compactRules rules = compactRulesWith CompactRules rules) ∧
    (∀ rules : List PolicyRule, ∃ out, CompactRules rules = .ok out) := by
  refine ⟨fun f rules e h => ?_, fun rules => rfl, fun rules => ⟨_, rfl⟩⟩
  simp only [compactRulesWith, h]

/-- Witness for the error fallback: a recompact step that always fails makes
`compactRulesWith` return its input unchanged. -/
theorem compactRules_error_fallback_witness :
    compactRulesWith (fun _ => Except.error "compaction failed") [namedPodsRule] =
      [namedPodsRule] :=
  compactRules_error_fallback.1 _ [namedPodsRule] "compaction failed" rfl

set_option maxRecDepth 1000000 in
/-- Claim C10: once the cluster role (or the role for a namespace) exists, the
ensure functions return the state unchanged and ignore their subject argument;
consequently, when the attempts come from two users, the single binding names
only the subject of the first uncovered attempt (alice), while the rule for
the other user's attempt is appended to the role bound to alice. -/
theorem ensure_ignores_subject :
    (∀ (options : GenerateOptions) (s : GenState) (subj1 subj2 : Subject),
      s.clusterRole.isSome = true →
        ensureClusterRoleAndBinding options s subj1 = s ∧
        ensureClusterRoleAndBinding options s subj1 = ensureClusterRoleAndBinding options s subj2) ∧
    (∀ (options : GenerateOptions) (s : GenState) (subj1 subj2 : Subject) (ns : String),
      hasNamespacedRole s ns = true →
        ensureNamespacedRoleAndBinding options s subj1 ns = s ∧
        ensureNamespacedRoleAndBinding options s subj1 ns =
          ensureNamespacedRoleAndBinding options s subj2 ns) ∧
    Generate twoUserGenerator = twoUserExpected := by
  refine ⟨fun options s subj1 subj2 h => ?_, fun options s subj1 subj2 ns h => ?_, by decide⟩
  · cases hs : s.clusterRole with
    | none => rw [hs] at h; cases h
    | some cr => constructor <;> simp [ensureClusterRoleAndBinding, hs]
  · constructor <;> simp [ensureNamespacedRoleAndBinding, h]

/-- Witness for the ensure functions ignoring their subject argument once the
role exists, at a concrete populated state. -/
theorem ensure_ignores_subject_witness :
    ensureClusterRoleAndBinding DefaultGenerateOptions existingClusterState
        (userToSubject aliceUser) = existingClusterState ∧
    ensureClusterRoleAndBinding DefaultGenerateOptions existingClusterState
        (userToSubject aliceUser) =
      ensureClusterRoleAndBinding DefaultGenerateOptions existingClusterState
        (userToSubject bobUser) :=
  ensure_ignores_subject.1 DefaultGenerateOptions existingClusterState
    (userToSubject aliceUser) (userToSubject bobUser) (by decide)

end Audit2RBAC
